import Mathlib

/-!
# Verification development for `pyqtgraph/graphicsItems/ErrorBarItem.py`

A shallow embedding of the `ErrorBarItem` graphics item: the stored option
set, `setData`, `setLogMode`, `getDrawValue`, `drawPath` (the path builder)
and `boundingRect`, together with theorems about the geometry-building
logic.

Numbers are modelled by `PFloat`, an IEEE-like extended value: a finite
value, a signed infinity, or NaN.  Finite values are arbitrary-precision
dyadic rationals `Dy` (an integer times a power of two, kept normalized),
which contain every finite IEEE-754 double exactly; the only division the
source performs is by `2.`, under which the dyadics are closed.  The only
library numeric routine the source uses is `np.log10` under
`errstate(invalid='ignore', divide='ignore')`; it is modelled by
`PFloat.log10` with numpy's domain behaviour (negative → NaN, zero → −∞,
NaN → NaN, +∞ → +∞, positive → finite).  The finite value returned on a
positive argument is an integer-valued placeholder (`dyLog10Val`, exact on
powers of ten); no theorem below depends on the positive-branch values
beyond their finiteness.

Error-magnitude fields (`height`, `top`, ... ) are modelled as per-point
sequences (numpy broadcasts scalars to such sequences); `beam` is a scalar
as in the documented API.  Python exceptions that the path builder can
raise (`NameError` for an unbound local, `IndexError`, `AttributeError`)
are modelled with `Except PyErr`.
-/

namespace ErrorBarItem

/-- A dyadic rational `n / 2^e`.  Values produced by the arithmetic below
are normalized (`n` odd or `e = 0`), so structural equality of produced
values is value equality. -/
structure Dy where
  n : ℤ
  e : ℕ
deriving DecidableEq, Repr

/-- `2^e` as an integer, by structural recursion. -/
def pow2 : ℕ → ℤ
  | 0 => 1
  | e + 1 => 2 * pow2 e

/-- Normalize `n / 2^e`: cancel common factors of two. -/
def dyNormAux : ℤ → ℕ → Dy
  | n, 0 => ⟨n, 0⟩
  | n, e + 1 => if n % 2 = 0 then dyNormAux (n / 2) e else ⟨n, e + 1⟩

/-- The integer `k` as a dyadic. -/
def dyOfInt (k : ℤ) : Dy := ⟨k, 0⟩

/-- Dyadic addition (over the common denominator, then normalized). -/
def dyAdd (a b : Dy) : Dy :=
  dyNormAux (a.n * pow2 b.e + b.n * pow2 a.e) (a.e + b.e)

/-- Dyadic negation. -/
def dyNeg (a : Dy) : Dy := ⟨-a.n, a.e⟩

/-- Dyadic halving (exact). -/
def dyHalf (a : Dy) : Dy := dyNormAux a.n (a.e + 1)

/-- An IEEE-754-like scalar: finite dyadic value, signed infinity
(`inf true` is +∞, `inf false` is −∞), or NaN. -/
inductive PFloat where
  | val : Dy → PFloat
  | inf : Bool → PFloat
  | nan : PFloat
deriving DecidableEq, Repr

/-- NaN test, as `np.isnan`. -/
def PFloat.isNaN : PFloat → Bool
  | .nan => true
  | _ => false

/-- IEEE-like addition with NaN propagation; opposite infinities give NaN. -/
def PFloat.add : PFloat → PFloat → PFloat
  | .val a, .val b => .val (dyAdd a b)
  | .val _, .inf s => .inf s
  | .inf s, .val _ => .inf s
  | .inf s, .inf t => if s = t then .inf s else .nan
  | _, _ => .nan

/-- IEEE-like negation. -/
def PFloat.neg : PFloat → PFloat
  | .val a => .val (dyNeg a)
  | .inf s => .inf (!s)
  | .nan => .nan

/-- IEEE-like subtraction. -/
def PFloat.sub (a b : PFloat) : PFloat := a.add b.neg

/-- Halving, the `v/2.` of the source. -/
def PFloat.half : PFloat → PFloat
  | .val a => .val (dyHalf a)
  | .inf s => .inf s
  | .nan => .nan

/-- Python comparison `v > 0`; NaN compares False (the sign of a dyadic is
the sign of its numerator). -/
def PFloat.gtZero : PFloat → Bool
  | .val a => decide (0 < a.n)
  | .inf s => s
  | .nan => false

/-- Fuel-driven count of base-10 digits (structural, kernel-reducible). -/
def d10Aux : Nat → Nat → Nat
  | 0, _ => 0
  | _ + 1, 0 => 0
  | fuel + 1, n + 1 => d10Aux fuel ((n + 1) / 10) + 1

/-- Number of base-10 digits of a natural number (0 for 0). -/
def d10 (n : Nat) : Nat := d10Aux n n

/-- Base-10 logarithm placeholder on the positive dyadics, exact on powers
of ten with exponent zero (`dyLog10Val 1 = 0`, `dyLog10Val 10 = 1`, ...);
only its finiteness matters to the development. -/
def dyLog10Val (d : Dy) : Dy :=
  dyOfInt ((d10 d.n.natAbs : ℤ) - 1 - (d.e : ℤ))

/-- Model of `np.log10` under `errstate(invalid='ignore', divide='ignore')`:
negative arguments give NaN, zero gives −∞, NaN gives NaN, +∞ gives +∞,
−∞ gives NaN, and a positive argument gives a finite value.  None of these
cases raises. -/
def PFloat.log10 : PFloat → PFloat
  | .val q =>
      if q.n < 0 then .nan
      else if q.n = 0 then .inf false
      else .val (dyLog10Val q)
  | .inf s => if s then .inf true else .nan
  | .nan => .nan

/-- A 1-D array of floats (a numpy array of shape `(N,)`). -/
abbrev Arr := List PFloat

/-- Elementwise subtraction of equal-length arrays, `a - b`. -/
def arrSub (a b : Arr) : Arr := List.zipWith PFloat.sub a b

/-- Elementwise addition of equal-length arrays, `a + b`. -/
def arrAdd (a b : Arr) : Arr := List.zipWith PFloat.add a b

/-- Elementwise halving, `a / 2.`. -/
def arrHalf (a : Arr) : Arr := a.map PFloat.half

/-- The filter mask of the source:
`np.logical_or(np.isnan a, np.logical_or(np.isnan b, np.isnan c))`. -/
def nanMask : Arr → Arr → Arr → List Bool
  | u :: us, v :: vs, w :: ws =>
      (u.isNaN || v.isNaN || w.isNaN) :: nanMask us vs ws
  | _, _, _ => []

/-- Boolean-mask selection `a[np.logical_not mask]`: keep the entries whose
mask bit is false. -/
def maskKeep : List Bool → Arr → Arr
  | m :: ms, v :: vs => if m then maskKeep ms vs else v :: maskKeep ms vs
  | _, _ => []

/-- The Python exceptions the path builder can raise. -/
inductive PyErr where
  | nameError
  | indexError
  | attributeError
deriving DecidableEq, Repr

deriving instance DecidableEq for Except

/-- Python array indexing `a[i]`: `IndexError` when out of range. -/
def pyIdx (a : Arr) (i : Nat) : Except PyErr PFloat :=
  match a.get? i with
  | some v => Except.ok v
  | none => Except.error PyErr.indexError

/-- A 2-D point. -/
structure Pt where
  x : PFloat
  y : PFloat
deriving DecidableEq, Repr

/-- One `moveTo`/`lineTo` pair of the painter path: a line segment. -/
structure Seg where
  a : Pt
  b : Pt
deriving DecidableEq, Repr

/-- Vertical-style segment: both endpoints share the coordinate `xv`
(`moveTo(xv, p); lineTo(xv, q)`). -/
def mkVBar (xv p q : PFloat) : Seg := ⟨⟨xv, p⟩, ⟨xv, q⟩⟩

/-- Horizontal-style segment: both endpoints share the coordinate `yv`
(`moveTo(p, yv); lineTo(q, yv)`). -/
def mkHBar (p q yv : PFloat) : Seg := ⟨⟨p, yv⟩, ⟨q, yv⟩⟩

/-- One iteration body of the emission loops: index three parallel arrays at
`i` and build a segment; any out-of-range access is an `IndexError`. -/
def tripleIdx (p q r : Arr) (mk : PFloat → PFloat → PFloat → Seg) (i : Nat) :
    Except PyErr Seg :=
  match p.get? i, q.get? i, r.get? i with
  | some u, some v, some w => Except.ok (mk u v w)
  | _, _, _ => Except.error PyErr.indexError

/-- `for i in [start, start+fuel): emit f i`, collecting the segments in
order and propagating the first exception. -/
def emitLoopAux (f : Nat → Except PyErr Seg) : Nat → Nat → Except PyErr (List Seg)
  | _, 0 => Except.ok []
  | i, fuel + 1 =>
      match f i with
      | Except.error e => Except.error e
      | Except.ok s =>
          match emitLoopAux f (i + 1) fuel with
          | Except.error e => Except.error e
          | Except.ok rest => Except.ok (s :: rest)

/-- `for i in range(n): emit f i`. -/
def emitLoop (f : Nat → Except PyErr Seg) (n : Nat) : Except PyErr (List Seg) :=
  emitLoopAux f 0 n

/-- The stored option dictionary `self.opts` of `ErrorBarItem`.  `pen` is an
opaque descriptor forwarded to the paint collaborator, never interpreted. -/
structure Opts where
  x : Option Arr
  y : Option Arr
  height : Option Arr
  width : Option Arr
  top : Option Arr
  bottom : Option Arr
  left : Option Arr
  right : Option Arr
  beam : Option PFloat
  pen : Option Nat
  logMode : Bool × Bool
deriving DecidableEq, Repr

/-- The initial option dictionary built in `__init__`. -/
def initialOpts : Opts :=
  { x := none, y := none, height := none, width := none, top := none,
    bottom := none, left := none, right := none, beam := none, pen := none,
    logMode := (false, false) }

/-- The log flag selected by `getDrawValue`:
`(horizontal and logMode[0]) or (not horizontal and logMode[1])`. -/
def logFlag (o : Opts) (horizontal : Bool) : Bool :=
  (horizontal && o.logMode.1) || (!horizontal && o.logMode.2)

/-- `ErrorBarItem.getDrawValue`: apply `log10` elementwise when the selected
axis is in log mode, otherwise pass the data through unchanged. -/
def getDrawValue (o : Opts) (data : Arr) (horizontal : Bool) : Arr :=
  if logFlag o horizontal then data.map PFloat.log10 else data

/-- `beam is not None and beam > 0` (a NaN beam compares False). -/
def beamPos : Option PFloat → Bool
  | some v => v.gtZero
  | none => false

/-- The vertical pass's data preparation (source lines 78–101): when at
least one of `height`/`top`/`bottom` is present, compute the endpoint
arrays `y1`/`y2` (with `height` overriding `top`/`bottom`), transform via
`getDrawValue`, build the NaN mask and return the three filtered arrays
`(rx, ry1, ry2)`.  `none` when the vertical pass is skipped. -/
def verticalData (o : Opts) (x y : Arr) : Option (Arr × Arr × Arr) :=
  if o.height.isSome || o.top.isSome || o.bottom.isSome then
    let y1 : Arr :=
      match o.height with
      | some h => arrSub y (arrHalf h)
      | none =>
          match o.bottom with
          | none => y
          | some b => arrSub y b
    let y2 : Arr :=
      match o.height with
      | some h => arrAdd y (arrHalf h)
      | none =>
          match o.top with
          | none => y
          | some t => arrAdd y t
    let rx := getDrawValue o x true
    let ry1 := getDrawValue o y1 false
    let ry2 := getDrawValue o y2 false
    let mask := nanMask rx ry1 ry2
    some (maskKeep mask rx, maskKeep mask ry1, maskKeep mask ry2)
  else none

/-- The cap endpoint arrays `(base - beam/2., base + beam/2.)`. -/
def capArrs (bv : PFloat) (base : Arr) : Arr × Arr :=
  (base.map (fun v => v.sub bv.half), base.map (fun v => v.add bv.half))

/-- The vertical pass's beam-cap loops (source lines 107–117): when `beam`
is present and positive, the upper cap segments at `ry2` (gated on
`height`/`top`) then the lower cap segments at `ry1` (gated on
`height`/`bottom`); otherwise nothing.  Returns `(topCaps, bottomCaps)`. -/
def verticalCaps (o : Opts) (rx ry1 ry2 : Arr) :
    Except PyErr (List Seg × List Seg) :=
  match o.beam with
  | none => Except.ok ([], [])
  | some bv =>
      if bv.gtZero then
        match capArrs bv rx with
        | (x1, x2) =>
            Bind.bind
              (if o.height.isSome || o.top.isSome then
                emitLoop (tripleIdx x1 x2 ry2 mkHBar) rx.length
              else pure [])
              (fun tc =>
                Bind.bind
                  (if o.height.isSome || o.bottom.isSome then
                    emitLoop (tripleIdx x1 x2 ry1 mkHBar) rx.length
                  else pure [])
                  (fun bc => pure (tc, bc)))
      else Except.ok ([], [])

/-- The vertical pass's emission loops (source lines 103–117): the bar
segments, then the beam caps.  Returns `(bars, topCaps, bottomCaps)`. -/
def verticalSegs (o : Opts) (vd : Option (Arr × Arr × Arr)) :
    Except PyErr (List Seg × List Seg × List Seg) :=
  match vd with
  | none => Except.ok ([], [], [])
  | some (rx, ry1, ry2) => do
      let bars ← emitLoop (tripleIdx rx ry1 ry2 mkVBar) rx.length
      let (tc, bc) ← verticalCaps o rx ry1 ry2
      pure (bars, tc, bc)

/-- The horizontal pass's beam-cap loops (source lines 149–159): when
`beam` is present and positive, the vertical cap segments at `rx2` (gated
on `width`/`right`) then those at `rx1` (gated on `width`/`left`);
otherwise nothing.  The loop bound `n` is `len(rx)` of the source — the
vertical pass's survivor count.  Returns `(rightCaps, leftCaps)`. -/
def horizontalCaps (o : Opts) (rx1 rx2 ry : Arr) (n : Nat) :
    Except PyErr (List Seg × List Seg) :=
  match o.beam with
  | none => Except.ok ([], [])
  | some bv =>
      if bv.gtZero then
        match capArrs bv ry with
        | (y1, y2) =>
            Bind.bind
              (if o.width.isSome || o.right.isSome then
                emitLoop (tripleIdx rx2 y1 y2 mkVBar) n
              else pure [])
              (fun rc =>
                Bind.bind
                  (if o.width.isSome || o.left.isSome then
                    emitLoop (tripleIdx rx1 y1 y2 mkVBar) n
                  else pure [])
                  (fun lc => pure (rc, lc)))
      else Except.ok ([], [])

/-- The horizontal pass's data preparation (source lines 122–143): compute
the endpoint arrays `x1`/`x2` (with `width` overriding `left`/`right`),
transform via `getDrawValue`, build the NaN mask and return the filtered
`(rx1, rx2, ry)`. -/
def horizontalData (o : Opts) (x y : Arr) : Arr × Arr × Arr :=
  let x1 : Arr :=
    match o.width with
    | some w => arrSub x (arrHalf w)
    | none =>
        match o.left with
        | none => x
        | some l => arrSub x l
  let x2 : Arr :=
    match o.width with
    | some w => arrAdd x (arrHalf w)
    | none =>
        match o.right with
        | none => x
        | some r => arrAdd x r
  let rx1u := getDrawValue o x1 true
  let rx2u := getDrawValue o x2 true
  let ryu := getDrawValue o y false
  let mask := nanMask rx1u rx2u ryu
  (maskKeep mask rx1u, maskKeep mask rx2u, maskKeep mask ryu)

/-- The horizontal pass (source lines 119–159): when at least one of
`width`/`right`/`left` is present, prepare the filtered data and run the
emission loops.  `vrx` is the vertical pass's filtered `rx` array when
that pass ran: the source's loops here are bounded by `len(rx)`, the
*vertical* array, so when the vertical pass did not run the loop bound
raises `NameError` (unbound local `rx`), and otherwise the bound is the
vertical survivor count rather than the horizontal one.
Returns `(bars, rightCaps, leftCaps)`. -/
def horizontalSegs (o : Opts) (x y : Arr) (vrx : Option Arr) :
    Except PyErr (List Seg × List Seg × List Seg) :=
  if o.width.isSome || o.right.isSome || o.left.isSome then
    match horizontalData o x y, vrx with
    | _, none => Except.error PyErr.nameError
    | (rx1, rx2, ry), some r => do
        let bars ← emitLoop (tripleIdx rx1 rx2 ry mkHBar) r.length
        let (rc, lc) ← horizontalCaps o rx1 rx2 ry r.length
        pure (bars, rc, lc)
  else Except.ok ([], [], [])

/-- The six groups of segments appended to the painter path by `drawPath`,
in source order. -/
structure PathParts where
  vBars : List Seg
  vTopCaps : List Seg
  vBotCaps : List Seg
  hBars : List Seg
  hRightCaps : List Seg
  hLeftCaps : List Seg
deriving DecidableEq, Repr

/-- The ordered segment sequence of the painter path. -/
def PathParts.segs (p : PathParts) : List Seg :=
  p.vBars ++ p.vTopCaps ++ p.vBotCaps ++ p.hBars ++ p.hRightCaps ++ p.hLeftCaps

/-- The geometry computation of `drawPath` for present `x`/`y`: the
vertical pass followed by the horizontal pass (which receives the vertical
pass's filtered `rx` because of the source's `len(rx)` loop bounds). -/
def drawPathCompute (o : Opts) (x y : Arr) : Except PyErr PathParts := do
  let vd := verticalData o x y
  let (vb, vt, vc) ← verticalSegs o vd
  let (hb, hr, hl) ← horizontalSegs o x y (vd.map (fun t => t.1))
  pure ⟨vb, vt, vc, hb, hr, hl⟩

/-- The renderable path: the ordered segment sequence. -/
abbrev PPath := List Seg

/-- Effect of calling `drawPath` on the cached path: when `x` or `y` is
`None` the method returns early *without assigning* `self.path` (the cache
keeps its old value); otherwise on success the computed path is stored, and
a raised exception leaves the cache unchanged. -/
def drawPathE (o : Opts) (old : Option PPath) : Except PyErr (Option PPath) :=
  match o.x, o.y with
  | some x, some y =>
      match drawPathCompute o x y with
      | Except.ok parts => Except.ok (some parts.segs)
      | Except.error e => Except.error e
  | _, _ => Except.ok old

/-- The fire-and-forget notifications issued to the external collaborator. -/
inductive Ev where
  | update
  | geometryChange
  | viewBoundsChanged
deriving DecidableEq, Repr

/-- The component state: the stored option set, the cached path (`None`
when stale/unbuilt), and the trace of notifications issued so far by the
mutating calls `setData`/`setLogMode`. -/
structure EState where
  opts : Opts
  path : Option PPath
  events : List Ev
deriving DecidableEq, Repr

/-- The state after a `drawPath()` call: options and notification trace are
untouched; the cached path is updated as by `drawPathE` (unchanged when the
call raised or returned early). -/
def drawPathS (s : EState) : EState :=
  match drawPathE s.opts s.path with
  | Except.ok p => { s with path := p }
  | Except.error _ => s

/-- The keyword arguments of one `setData(**opts)` call: each recognized
option is either absent from the call (`none`) or supplies a new stored
value (`some v`, where `v` itself may be `None` to disable the field). -/
structure DataArgs where
  x : Option (Option Arr)
  y : Option (Option Arr)
  height : Option (Option Arr)
  width : Option (Option Arr)
  top : Option (Option Arr)
  bottom : Option (Option Arr)
  left : Option (Option Arr)
  right : Option (Option Arr)
  beam : Option (Option PFloat)
  pen : Option (Option Nat)
  logMode : Option (Bool × Bool)
deriving DecidableEq, Repr

/-- A `setData()` call with no keyword arguments. -/
def emptyArgs : DataArgs :=
  ⟨none, none, none, none, none, none, none, none, none, none, none⟩

/-- The dictionary merge `self.opts.update(opts)`: a field named in the
call overwrites the stored value, every other field keeps its value. -/
def applyArgs (o : Opts) (a : DataArgs) : Opts :=
  { x := a.x.getD o.x, y := a.y.getD o.y, height := a.height.getD o.height,
    width := a.width.getD o.width, top := a.top.getD o.top,
    bottom := a.bottom.getD o.bottom, left := a.left.getD o.left,
    right := a.right.getD o.right, beam := a.beam.getD o.beam,
    pen := a.pen.getD o.pen, logMode := a.logMode.getD o.logMode }

/-- `ErrorBarItem.setData`: merge the provided fields into the stored
options, drop the cached path, and unconditionally notify (`update`,
`prepareGeometryChange`, `informViewBoundsChanged`). -/
def setData (s : EState) (a : DataArgs) : EState :=
  { opts := applyArgs s.opts a, path := none,
    events := s.events ++ [Ev.update, Ev.geometryChange, Ev.viewBoundsChanged] }

/-- `ErrorBarItem.setLogMode`: a complete no-op when the stored pair
already equals `(xMode, yMode)`; otherwise store the new pair, drop the
cached path, and notify exactly as `setData` does. -/
def setLogMode (s : EState) (xMode yMode : Bool) : EState :=
  if s.opts.logMode = (xMode, yMode) then s
  else
    { opts := { s.opts with logMode := (xMode, yMode) }, path := none,
      events := s.events ++ [Ev.update, Ev.geometryChange, Ev.viewBoundsChanged] }

/-- `ErrorBarItem.__init__`: the initial option dictionary followed by a
`setData(**opts)` call. -/
def mkErrorBarItem (a : DataArgs) : EState :=
  setData ⟨initialOpts, none, []⟩ a

/-- Total order-style comparison used only for the bounding box fold; NaN
compares False against everything, as in IEEE. -/
def PFloat.leB : PFloat → PFloat → Bool
  | .val a, .val b => decide (a.n * pow2 b.e ≤ b.n * pow2 a.e)
  | .val _, .inf t => t
  | .inf s, .val _ => !s
  | .inf s, .inf t => !s || t
  | .nan, _ => false
  | _, .nan => false

/-- Minimum for the bounding box fold. -/
def PFloat.fmin (a b : PFloat) : PFloat := if PFloat.leB a b then a else b

/-- Maximum for the bounding box fold. -/
def PFloat.fmax (a b : PFloat) : PFloat := if PFloat.leB a b then b else a

/-- All endpoints of a path, in order. -/
def segPoints (p : PPath) : List Pt :=
  p.foldr (fun s acc => s.a :: s.b :: acc) []

/-- An axis-aligned rectangle `(x, y, width, height)`. -/
structure Rect where
  x : PFloat
  y : PFloat
  w : PFloat
  h : PFloat
deriving DecidableEq, Repr

/-- `QPainterPath.boundingRect`: the axis-aligned bounding box of the
path's points; the empty path gives the zero rectangle. -/
def pathBoundingRect (p : PPath) : Rect :=
  match segPoints p with
  | [] =>
      ⟨PFloat.val (dyOfInt 0), PFloat.val (dyOfInt 0), PFloat.val (dyOfInt 0),
        PFloat.val (dyOfInt 0)⟩
  | q :: qs =>
      let minx := qs.foldl (fun acc r => PFloat.fmin acc r.x) q.x
      let maxx := qs.foldl (fun acc r => PFloat.fmax acc r.x) q.x
      let miny := qs.foldl (fun acc r => PFloat.fmin acc r.y) q.y
      let maxy := qs.foldl (fun acc r => PFloat.fmax acc r.y) q.y
      ⟨minx, miny, maxx.sub minx, maxy.sub miny⟩

/-- `ErrorBarItem.boundingRect`: build the path first when the cache is
stale, then take `self.path.boundingRect()`.  When `drawPath` returned
early without storing a path (absent `x`/`y`), the cache is still `None`
and the attribute access raises `AttributeError`; an exception raised
inside `drawPath` propagates. -/
def boundingRectE (s : EState) : Except PyErr (Rect × EState) :=
  match s.path with
  | some p => Except.ok (pathBoundingRect p, s)
  | none =>
      match drawPathE s.opts s.path with
      | Except.error e => Except.error e
      | Except.ok newPath =>
          match newPath with
          | none => Except.error PyErr.attributeError
          | some p => Except.ok (pathBoundingRect p, { s with path := some p })

/-- Options with only the y axis in log mode. -/
def oLogY : Opts := { initialOpts with logMode := (false, true) }

/-- Options with data and `width` only: the horizontal pass runs, the
vertical pass does not. -/
def oNameErr : Opts :=
  { initialOpts with
    x := some [PFloat.val (dyOfInt 1)], y := some [PFloat.val (dyOfInt 1)],
    width := some [PFloat.val (dyOfInt 2)] }

/-- Scenario C of the spec: `x=[1]`, `y=[0]`, `height=[2]`, y-log mode. -/
def oScC : Opts :=
  { initialOpts with
    x := some [PFloat.val (dyOfInt 1)], y := some [PFloat.val (dyOfInt 0)],
    height := some [PFloat.val (dyOfInt 2)], logMode := (false, true) }

/-- Options with `height` and also `top`/`bottom` set. -/
def oHeightEx : Opts :=
  { initialOpts with
    x := some [PFloat.val (dyOfInt 1)], y := some [PFloat.val (dyOfInt 10)],
    height := some [PFloat.val (dyOfInt 4)],
    top := some [PFloat.val (dyOfInt 1)], bottom := some [PFloat.val (dyOfInt 1)] }

/-- Options with a positive beam, `bottom` set, `height`/`top` absent. -/
def oGateEx : Opts :=
  { initialOpts with
    x := some [PFloat.val (dyOfInt 1)], y := some [PFloat.val (dyOfInt 10)],
    bottom := some [PFloat.val (dyOfInt 1)], beam := some (PFloat.val (dyOfInt 1)) }

/-- A sample built-up state for the stateful witnesses. -/
def sEx : EState := ⟨oHeightEx, none, []⟩

/-- The vertical bar built from `oHeightEx`. -/
def segEx : Seg := ⟨⟨PFloat.val (dyOfInt 1), PFloat.val (dyOfInt 8)⟩, ⟨PFloat.val (dyOfInt 1), PFloat.val (dyOfInt 12)⟩⟩

/-- The path parts built from `oHeightEx`. -/
def partsEx : PathParts := ⟨[segEx], [], [], [], [], []⟩

/-- The path parts built from `oGateEx`: one bar and one lower cap. -/
def partsGateEx : PathParts :=
  ⟨[⟨⟨PFloat.val (dyOfInt 1), PFloat.val (dyOfInt 9)⟩, ⟨PFloat.val (dyOfInt 1), PFloat.val (dyOfInt 10)⟩⟩], [],
    [⟨⟨PFloat.val ⟨1, 1⟩, PFloat.val (dyOfInt 9)⟩, ⟨PFloat.val ⟨3, 1⟩, PFloat.val (dyOfInt 9)⟩⟩],
    [], [], []⟩

/-- A `setData` call providing only a new `x`. -/
def a9 : DataArgs := { emptyArgs with x := some (some [PFloat.val (dyOfInt 7)]) }

lemma except_bind_ok {α β : Type} {e : Except PyErr α} {f : α → Except PyErr β}
    {c : β} :
    Bind.bind e f = Except.ok c ↔ ∃ b, e = Except.ok b ∧ f b = Except.ok c := by
  cases e with
  | error a => simp [Bind.bind, Except.bind]
  | ok b => simp [Bind.bind, Except.bind]

lemma except_pure_ok {α : Type} {b c : α} :
    (pure b : Except PyErr α) = Except.ok c ↔ b = c := by
  simp [pure, Except.pure]

lemma mem_maskKeep_nanMask_left :
    ∀ (a b c : Arr) (v : PFloat), v ∈ maskKeep (nanMask a b c) a →
      v.isNaN = false := by
  intro a
  induction a with
  | nil => intro b c v h; cases b <;> cases c <;> simp [nanMask, maskKeep] at h
  | cons u us ih =>
      intro b c v h
      cases b with
      | nil => simp [nanMask, maskKeep] at h
      | cons v0 vs =>
          cases c with
          | nil => simp [nanMask, maskKeep] at h
          | cons w0 ws =>
              simp only [nanMask, maskKeep] at h
              by_cases hm : (u.isNaN || v0.isNaN || w0.isNaN) = true
              · rw [if_pos hm] at h
                exact ih vs ws v h
              · rw [if_neg hm] at h
                rcases List.mem_cons.mp h with h1 | h2
                · subst h1
                  simp only [Bool.or_eq_true] at hm
                  push_neg at hm
                  simp [Bool.not_eq_true] at hm
                  exact hm.1.1
                · exact ih vs ws v h2

lemma mem_maskKeep_nanMask_mid :
    ∀ (a b c : Arr) (v : PFloat), v ∈ maskKeep (nanMask a b c) b →
      v.isNaN = false := by
  intro a
  induction a with
  | nil => intro b c v h; cases b <;> cases c <;> simp [nanMask, maskKeep] at h
  | cons u us ih =>
      intro b c v h
      cases b with
      | nil => simp [nanMask, maskKeep] at h
      | cons v0 vs =>
          cases c with
          | nil => simp [nanMask, maskKeep] at h
          | cons w0 ws =>
              simp only [nanMask, maskKeep] at h
              by_cases hm : (u.isNaN || v0.isNaN || w0.isNaN) = true
              · rw [if_pos hm] at h
                exact ih vs ws v h
              · rw [if_neg hm] at h
                rcases List.mem_cons.mp h with h1 | h2
                · subst h1
                  simp only [Bool.or_eq_true] at hm
                  push_neg at hm
                  simp [Bool.not_eq_true] at hm
                  exact hm.1.2
                · exact ih vs ws v h2

lemma mem_maskKeep_nanMask_right :
    ∀ (a b c : Arr) (v : PFloat), v ∈ maskKeep (nanMask a b c) c →
      v.isNaN = false := by
  intro a
  induction a with
  | nil => intro b c v h; cases b <;> cases c <;> simp [nanMask, maskKeep] at h
  | cons u us ih =>
      intro b c v h
      cases b with
      | nil => simp [nanMask, maskKeep] at h
      | cons v0 vs =>
          cases c with
          | nil => simp [nanMask, maskKeep] at h
          | cons w0 ws =>
              simp only [nanMask, maskKeep] at h
              by_cases hm : (u.isNaN || v0.isNaN || w0.isNaN) = true
              · rw [if_pos hm] at h
                exact ih vs ws v h
              · rw [if_neg hm] at h
                rcases List.mem_cons.mp h with h1 | h2
                · subst h1
                  simp only [Bool.or_eq_true] at hm
                  push_neg at hm
                  simp [Bool.not_eq_true] at hm
                  exact hm.2
                · exact ih vs ws v h2

lemma emitLoopAux_ok_mem {f : Nat → Except PyErr Seg} :
    ∀ (fuel i : Nat) (l : List Seg) (s : Seg),
      emitLoopAux f i fuel = Except.ok l → s ∈ l → ∃ j, f j = Except.ok s := by
  intro fuel
  induction fuel with
  | zero =>
      intro i l s h hs
      simp only [emitLoopAux] at h
      cases h
      simp at hs
  | succ k ih =>
      intro i l s h hs
      simp only [emitLoopAux] at h
      cases hf : f i with
      | error e => rw [hf] at h; cases h
      | ok s0 =>
          rw [hf] at h
          cases he : emitLoopAux f (i + 1) k with
          | error e => rw [he] at h; cases h
          | ok rest =>
              rw [he] at h
              cases h
              rcases List.mem_cons.mp hs with h1 | h2
              · exact ⟨i, by rw [hf, h1]⟩
              · exact ih (i + 1) rest s he h2

lemma emitLoop_ok_mem {f : Nat → Except PyErr Seg} {n : Nat} {l : List Seg}
    {s : Seg} (h : emitLoop f n = Except.ok l) (hs : s ∈ l) :
    ∃ j, f j = Except.ok s :=
  emitLoopAux_ok_mem n 0 l s h hs

lemma tripleIdx_ok_inv {p q r : Arr} {mk : PFloat → PFloat → PFloat → Seg}
    {j : Nat} {s : Seg} (h : tripleIdx p q r mk j = Except.ok s) :
    ∃ u v w, u ∈ p ∧ v ∈ q ∧ w ∈ r ∧ s = mk u v w := by
  unfold tripleIdx at h
  cases hp : p.get? j <;> rw [hp] at h
  · cases h
  cases hq : q.get? j <;> rw [hq] at h
  · cases h
  cases hr : r.get? j <;> rw [hr] at h
  · cases h
  cases h
  exact ⟨_, _, _, List.get?_mem hp, List.get?_mem hq, List.get?_mem hr, rfl⟩

lemma drawPathCompute_ok_inv {o : Opts} {x y : Arr} {parts : PathParts}
    (h : drawPathCompute o x y = Except.ok parts) :
    verticalSegs o (verticalData o x y) =
      Except.ok (parts.vBars, parts.vTopCaps, parts.vBotCaps) ∧
    horizontalSegs o x y ((verticalData o x y).map (fun t => t.1)) =
      Except.ok (parts.hBars, parts.hRightCaps, parts.hLeftCaps) := by
  unfold drawPathCompute at h
  rw [except_bind_ok] at h
  obtain ⟨v3, hv, h⟩ := h
  obtain ⟨vb, vt, vc⟩ := v3
  rw [except_bind_ok] at h
  obtain ⟨h3, hh, h⟩ := h
  obtain ⟨hb, hr, hl⟩ := h3
  rw [except_pure_ok] at h
  subst h
  exact ⟨hv, hh⟩

lemma verticalSegs_ok_inv {o : Opts} {vd : Option (Arr × Arr × Arr)}
    {vb vt vc : List Seg} (h : verticalSegs o vd = Except.ok (vb, vt, vc)) :
    (vd = none ∧ vb = [] ∧ vt = [] ∧ vc = []) ∨
    ∃ rx ry1 ry2, vd = some (rx, ry1, ry2) ∧
      emitLoop (tripleIdx rx ry1 ry2 mkVBar) rx.length = Except.ok vb ∧
      verticalCaps o rx ry1 ry2 = Except.ok (vt, vc) := by
  cases vd with
  | none =>
      left
      unfold verticalSegs at h
      cases h
      exact ⟨rfl, rfl, rfl, rfl⟩
  | some t =>
      right
      obtain ⟨rx, ry1, ry2⟩ := t
      unfold verticalSegs at h
      rw [except_bind_ok] at h
      obtain ⟨bars, hbars, h⟩ := h
      rw [except_bind_ok] at h
      obtain ⟨cp, hcp, h⟩ := h
      obtain ⟨tc, bc⟩ := cp
      rw [except_pure_ok] at h
      cases h
      exact ⟨rx, ry1, ry2, rfl, hbars, hcp⟩

lemma horizontalSegs_ok_inv {o : Opts} {x y : Arr} {vrx : Option Arr}
    {hb hr hl : List Seg} (h : horizontalSegs o x y vrx = Except.ok (hb, hr, hl)) :
    (hb = [] ∧ hr = [] ∧ hl = []) ∨
    ∃ rx1 rx2 ry n, horizontalCaps o rx1 rx2 ry n = Except.ok (hr, hl) := by
  unfold horizontalSegs at h
  by_cases hc : (o.width.isSome || o.right.isSome || o.left.isSome) = true
  · rw [if_pos hc] at h
    right
    rcases hd : horizontalData o x y with ⟨rx1, rx2, ry⟩
    rw [hd] at h
    cases hvrx : vrx with
    | none =>
        rw [hvrx] at h
        simp at h
    | some r =>
        rw [hvrx] at h
        dsimp only at h
        rw [except_bind_ok] at h
        obtain ⟨bars, hbars, h⟩ := h
        rw [except_bind_ok] at h
        obtain ⟨cp, hcp, h⟩ := h
        obtain ⟨rc, lc⟩ := cp
        rw [except_pure_ok] at h
        cases h
        exact ⟨_, _, _, _, hcp⟩
  · rw [if_neg hc] at h
    left
    cases h
    exact ⟨rfl, rfl, rfl⟩

lemma verticalCaps_no_beam {o : Opts} {rx ry1 ry2 : Arr}
    (h : o.beam = none ∨ o.beam = some (PFloat.val (dyOfInt 0))) :
    verticalCaps o rx ry1 ry2 = Except.ok ([], []) := by
  rcases h with h | h <;> simp [verticalCaps, h, PFloat.gtZero, dyOfInt]

lemma horizontalCaps_no_beam {o : Opts} {rx1 rx2 ry : Arr} {n : Nat}
    (h : o.beam = none ∨ o.beam = some (PFloat.val (dyOfInt 0))) :
    horizontalCaps o rx1 rx2 ry n = Except.ok ([], []) := by
  rcases h with h | h <;> simp [horizontalCaps, h, PFloat.gtZero, dyOfInt]

lemma verticalCaps_top_gate {o : Opts} {rx ry1 ry2 : Arr} {tc bc : List Seg}
    (hh : o.height = none) (ht : o.top = none)
    (h : verticalCaps o rx ry1 ry2 = Except.ok (tc, bc)) : tc = [] := by
  unfold verticalCaps at h
  cases hbm : o.beam with
  | none => rw [hbm] at h; cases h; rfl
  | some bv =>
      rw [hbm] at h
      dsimp only at h
      by_cases hz : bv.gtZero = true
      · rw [if_pos hz] at h
        rcases hca : capArrs bv rx with ⟨x1, x2⟩
        rw [hca] at h
        dsimp only at h
        rw [hh, ht] at h
        simp only [Option.isSome_none, Bool.false_or, Bool.or_self] at h
        rw [if_neg Bool.false_ne_true] at h
        rw [except_bind_ok] at h
        obtain ⟨t0, ht0, h⟩ := h
        rw [except_pure_ok] at ht0
        rw [except_bind_ok] at h
        obtain ⟨b0, hb0, h⟩ := h
        rw [except_pure_ok] at h
        cases h
        exact ht0.symm
      · rw [if_neg hz] at h
        cases h
        rfl

lemma verticalCaps_bottom_gate {o : Opts} {rx ry1 ry2 : Arr} {tc bc : List Seg}
    (hh : o.height = none) (hb : o.bottom = none)
    (h : verticalCaps o rx ry1 ry2 = Except.ok (tc, bc)) : bc = [] := by
  unfold verticalCaps at h
  cases hbm : o.beam with
  | none => rw [hbm] at h; cases h; rfl
  | some bv =>
      rw [hbm] at h
      dsimp only at h
      by_cases hz : bv.gtZero = true
      · rw [if_pos hz] at h
        rcases hca : capArrs bv rx with ⟨x1, x2⟩
        rw [hca] at h
        dsimp only at h
        rw [hh, hb] at h
        simp only [Option.isSome_none, Bool.false_or, Bool.or_self] at h
        rw [if_neg Bool.false_ne_true] at h
        rw [except_bind_ok] at h
        obtain ⟨t0, ht0, h⟩ := h
        rw [except_bind_ok] at h
        obtain ⟨b0, hb0, h⟩ := h
        rw [except_pure_ok] at hb0
        rw [except_pure_ok] at h
        cases h
        exact hb0.symm
      · rw [if_neg hz] at h
        cases h
        rfl

lemma verticalSegs_vbars_shape {o : Opts} {vd : Option (Arr × Arr × Arr)}
    {vb vt vc : List Seg} {s : Seg}
    (h : verticalSegs o vd = Except.ok (vb, vt, vc)) (hs : s ∈ vb) :
    ∃ rx ry1 ry2 u v w, vd = some (rx, ry1, ry2) ∧
      u ∈ rx ∧ v ∈ ry1 ∧ w ∈ ry2 ∧ s = mkVBar u v w := by
  rcases verticalSegs_ok_inv h with ⟨_, hvb, _, _⟩ | ⟨rx, ry1, ry2, hvd, hbars, _⟩
  · subst hvb; cases hs
  · obtain ⟨j, hj⟩ := emitLoop_ok_mem hbars hs
    obtain ⟨u, v, w, hu, hv, hw, hsw⟩ := tripleIdx_ok_inv hj
    exact ⟨rx, ry1, ry2, u, v, w, hvd, hu, hv, hw, hsw⟩

lemma verticalData_some_inv {o : Opts} {x y : Arr} {rx ry1 ry2 : Arr}
    (h : verticalData o x y = some (rx, ry1, ry2)) :
    ∃ rx0 ry10 ry20, rx = maskKeep (nanMask rx0 ry10 ry20) rx0 ∧
      ry1 = maskKeep (nanMask rx0 ry10 ry20) ry10 ∧
      ry2 = maskKeep (nanMask rx0 ry10 ry20) ry20 := by
  unfold verticalData at h
  by_cases hc : (o.height.isSome || o.top.isSome || o.bottom.isSome) = true
  · rw [if_pos hc] at h
    simp only [Option.some.injEq, Prod.mk.injEq] at h
    exact ⟨_, _, _, h.1.symm, h.2.1.symm, h.2.2.symm⟩
  · rw [if_neg hc] at h
    cases h

lemma verticalData_tb {o : Opts} {h : Arr} (hh : o.height = some h)
    (t b : Option Arr) (x y : Arr) :
    verticalData { o with top := t, bottom := b } x y = verticalData o x y := by
  simp [verticalData, hh, getDrawValue, logFlag]

lemma verticalCaps_tb {o : Opts} {h : Arr} (hh : o.height = some h)
    (t b : Option Arr) (rx ry1 ry2 : Arr) :
    verticalCaps { o with top := t, bottom := b } rx ry1 ry2 =
      verticalCaps o rx ry1 ry2 := by
  simp [verticalCaps, hh]

lemma verticalSegs_tb {o : Opts} {h : Arr} (hh : o.height = some h)
    (t b : Option Arr) (vd : Option (Arr × Arr × Arr)) :
    verticalSegs { o with top := t, bottom := b } vd = verticalSegs o vd := by
  cases vd with
  | none => rfl
  | some tr =>
      obtain ⟨rx, ry1, ry2⟩ := tr
      unfold verticalSegs
      dsimp only
      rw [verticalCaps_tb hh]

lemma verticalData_tb_half {o : Opts} {h : Arr} (hh : o.height = some h)
    (x y : Arr) :
    verticalData o x y =
      verticalData
        { o with
          height := none, top := some (arrHalf h),
          bottom := some (arrHalf h) } x y := by
  simp [verticalData, hh, getDrawValue, logFlag]

lemma verticalCaps_tb_half {o : Opts} {h : Arr} (hh : o.height = some h)
    (rx ry1 ry2 : Arr) :
    verticalCaps o rx ry1 ry2 =
      verticalCaps
        { o with
          height := none, top := some (arrHalf h),
          bottom := some (arrHalf h) } rx ry1 ry2 := by
  simp [verticalCaps, hh]

lemma verticalSegs_tb_half {o : Opts} {h : Arr} (hh : o.height = some h)
    (vd : Option (Arr × Arr × Arr)) :
    verticalSegs o vd =
      verticalSegs
        { o with
          height := none, top := some (arrHalf h),
          bottom := some (arrHalf h) } vd := by
  cases vd with
  | none => rfl
  | some tr =>
      obtain ⟨rx, ry1, ry2⟩ := tr
      unfold verticalSegs
      dsimp only
      rw [verticalCaps_tb_half hh]

lemma horizontalSegs_tb {o : Opts} (t b : Option Arr) (x y : Arr)
    (vrx : Option Arr) :
    horizontalSegs { o with top := t, bottom := b } x y vrx =
      horizontalSegs o x y vrx := rfl

lemma horizontalSegs_tb_half {o : Opts} (t b : Option Arr) (x y : Arr)
    (vrx : Option Arr) :
    horizontalSegs { o with height := none, top := t, bottom := b } x y vrx =
      horizontalSegs o x y vrx := rfl

/-- C1 (counter-evidence): with `x` and `y` absent — a freshly constructed
item with no data — `drawPath()` returns early *without* storing a path,
so the cache stays `None`, and `boundingRect()` then raises
`AttributeError` instead of returning an empty/zero-area box as claimed. -/
theorem missing_xy_boundingRect_raises :
    mkErrorBarItem emptyArgs =
      ⟨initialOpts, none, [Ev.update, Ev.geometryChange, Ev.viewBoundsChanged]⟩ ∧
    drawPathS (mkErrorBarItem emptyArgs) = mkErrorBarItem emptyArgs ∧
    boundingRectE (mkErrorBarItem emptyArgs) =
      Except.error PyErr.attributeError := by
  exact ⟨rfl, rfl, rfl⟩

/-- C2 (counter-evidence): with only `width` present (so the vertical pass
does not run), the horizontal pass's loop bound `len(rx)` names the
vertical pass's local variable, which is unbound — `drawPath` raises
`NameError` instead of emitting one segment per surviving horizontal
index. -/
theorem horizontal_pass_unbound_rx :
    drawPathE oNameErr none = Except.error PyErr.nameError := by
  decide

/-- C3: with `height` present the vertical bar endpoints come from `height`
alone — replacing `top`/`bottom` by anything never changes the built path,
and the path equals the one built through the else-branch formulas
`y1 = y - bottom`, `y2 = y + top` at `top = bottom = height/2`, i.e. the
endpoints are `y - height/2` and `y + height/2`. -/
theorem height_overrides_top_bottom :
    ∀ (o : Opts) (x y h : Arr) (t b : Option Arr), o.height = some h →
      drawPathCompute { o with top := t, bottom := b } x y =
          drawPathCompute o x y ∧
      drawPathCompute o x y =
        drawPathCompute
          { o with
            height := none, top := some (arrHalf h),
            bottom := some (arrHalf h) } x y := by
  intro o x y h t b hh
  constructor
  · unfold drawPathCompute
    dsimp only
    rw [verticalData_tb hh, verticalSegs_tb hh, horizontalSegs_tb]
  · unfold drawPathCompute
    dsimp only
    rw [verticalData_tb_half hh, verticalSegs_tb_half hh, horizontalSegs_tb_half]

/-- C3 witness: the override property applied at `oHeightEx`. -/
theorem height_overrides_top_bottom_w :
    drawPathCompute { oHeightEx with top := none, bottom := none }
        [PFloat.val (dyOfInt 1)] [PFloat.val (dyOfInt 10)] =
      drawPathCompute oHeightEx [PFloat.val (dyOfInt 1)] [PFloat.val (dyOfInt 10)] ∧
    drawPathCompute oHeightEx [PFloat.val (dyOfInt 1)] [PFloat.val (dyOfInt 10)] =
      drawPathCompute
        { oHeightEx with
          height := none, top := some (arrHalf [PFloat.val (dyOfInt 4)]),
          bottom := some (arrHalf [PFloat.val (dyOfInt 4)]) }
        [PFloat.val (dyOfInt 1)] [PFloat.val (dyOfInt 10)] :=
  height_overrides_top_bottom oHeightEx [PFloat.val (dyOfInt 1)] [PFloat.val (dyOfInt 10)]
    [PFloat.val (dyOfInt 4)] none none rfl

/-- C4: the vertical-pass filter drops an index when any of `rx`, `ry1`,
`ry2` is NaN, so every emitted vertical bar has NaN-free coordinates; and
in scenario C (`x=[1]`, `y=[0]`, `height=[2]`, y-log) the single point's
`ry1` is NaN, so the whole path is empty. -/
theorem vertical_nan_filter :
    (∀ (o : Opts) (x y : Arr) (parts : PathParts) (s : Seg),
        drawPathCompute o x y = Except.ok parts → s ∈ parts.vBars →
        s.a.x.isNaN = false ∧ s.a.y.isNaN = false ∧
        s.b.x.isNaN = false ∧ s.b.y.isNaN = false) ∧
    drawPathCompute oScC [PFloat.val (dyOfInt 1)] [PFloat.val (dyOfInt 0)] =
      Except.ok ⟨[], [], [], [], [], []⟩ := by
  constructor
  · intro o x y parts s hok hs
    obtain ⟨hv, _⟩ := drawPathCompute_ok_inv hok
    obtain ⟨rx, ry1, ry2, u, v, w, hvd, hu, hvv, hw, hsw⟩ :=
      verticalSegs_vbars_shape hv hs
    obtain ⟨rx0, ry10, ry20, hrx, hry1, hry2⟩ := verticalData_some_inv hvd
    subst hsw hrx hry1 hry2
    exact ⟨mem_maskKeep_nanMask_left _ _ _ _ hu,
      mem_maskKeep_nanMask_mid _ _ _ _ hvv,
      mem_maskKeep_nanMask_left _ _ _ _ hu,
      mem_maskKeep_nanMask_right _ _ _ _ hw⟩
  · decide

/-- C4 witness: the filter property applied to the bar built from
`oHeightEx`. -/
theorem vertical_nan_filter_w :
    segEx.a.x.isNaN = false ∧ segEx.a.y.isNaN = false ∧
    segEx.b.x.isNaN = false ∧ segEx.b.y.isNaN = false :=
  vertical_nan_filter.1 oHeightEx [PFloat.val (dyOfInt 1)] [PFloat.val (dyOfInt 10)] partsEx segEx
    (by decide) (by decide)

/-- C5 (counterexample): on a log-flagged axis the value `0` does *not*
become NaN — `np.log10(0)` is `-inf` (the `divide` branch of the
suppressed `errstate`), which survives `isnan` filtering. -/
theorem log_zero_not_nan :
    getDrawValue oLogY [PFloat.val (dyOfInt 0)] false = [PFloat.inf false] ∧
    getDrawValue oLogY [PFloat.val (dyOfInt 0)] false ≠ [PFloat.nan] := by
  constructor
  · decide
  · decide

/-- C5 (amended): on a log-flagged axis each value is replaced by
`log10`: negative or NaN values become NaN, `0` becomes `-inf`, positive
values become finite values — none of these raises — and with the flag
false the data passes through unchanged. -/
theorem log_transform_amended :
    ∀ (o : Opts) (data : Arr) (horizontal : Bool),
      (logFlag o horizontal = false → getDrawValue o data horizontal = data) ∧
      (logFlag o horizontal = true →
        getDrawValue o data horizontal = data.map PFloat.log10) ∧
      (∀ d : Dy, d.n < 0 → PFloat.log10 (PFloat.val d) = PFloat.nan) ∧
      PFloat.log10 (PFloat.val (dyOfInt 0)) = PFloat.inf false ∧
      PFloat.log10 PFloat.nan = PFloat.nan ∧
      (∀ d : Dy, 0 < d.n →
        PFloat.log10 (PFloat.val d) = PFloat.val (dyLog10Val d)) := by
  intro o data horizontal
  refine ⟨?_, ?_, ?_, by decide, rfl, ?_⟩
  · intro hf; simp [getDrawValue, hf]
  · intro hf; simp [getDrawValue, hf]
  · intro d hd
    simp [PFloat.log10, hd]
  · intro d hd
    have h1 : ¬d.n < 0 := not_lt.mpr (le_of_lt hd)
    have h2 : ¬d.n = 0 := ne_of_gt hd
    simp [PFloat.log10, h1, h2]

/-- C5 witness: the amended transform evaluated at concrete values. -/
theorem log_transform_amended_w :
    getDrawValue oLogY [PFloat.val (dyOfInt 2)] true = [PFloat.val (dyOfInt 2)] ∧
    getDrawValue oLogY [PFloat.val (dyOfInt 2)] false = [PFloat.val (dyOfInt 2)].map PFloat.log10 ∧
    PFloat.log10 (PFloat.val (dyOfInt (-1))) = PFloat.nan ∧
    PFloat.log10 (PFloat.val (dyOfInt 10)) = PFloat.val (dyLog10Val (dyOfInt 10)) :=
  ⟨(log_transform_amended oLogY [PFloat.val (dyOfInt 2)] true).1 (by decide),
    (log_transform_amended oLogY [PFloat.val (dyOfInt 2)] false).2.1 (by decide),
    (log_transform_amended oLogY [] false).2.2.1 (dyOfInt (-1)) (by decide),
    (log_transform_amended oLogY [] false).2.2.2.2.2 (dyOfInt 10) (by decide)⟩

/-- C6: cap segments require `beam` present and positive — with `beam`
absent or `0` the built path has no caps at all — and in the vertical pass
the upper caps need `height` or `top` present and the lower caps need
`height` or `bottom` present. -/
theorem beam_caps_gating :
    ∀ (o : Opts) (x y : Arr) (parts : PathParts),
      drawPathCompute o x y = Except.ok parts →
      ((o.beam = none ∨ o.beam = some (PFloat.val (dyOfInt 0))) →
        parts.vTopCaps = [] ∧ parts.vBotCaps = [] ∧
        parts.hRightCaps = [] ∧ parts.hLeftCaps = []) ∧
      (o.height = none → o.top = none → parts.vTopCaps = []) ∧
      (o.height = none → o.bottom = none → parts.vBotCaps = []) := by
  intro o x y parts hok
  obtain ⟨hv, hhz⟩ := drawPathCompute_ok_inv hok
  refine ⟨?_, ?_, ?_⟩
  · intro hbeam
    have hvc : parts.vTopCaps = [] ∧ parts.vBotCaps = [] := by
      rcases verticalSegs_ok_inv hv with ⟨_, _, h1, h2⟩ |
        ⟨rx, ry1, ry2, _, _, hcp⟩
      · exact ⟨h1, h2⟩
      · rw [verticalCaps_no_beam hbeam] at hcp
        injection hcp with h12
        exact ⟨(congrArg Prod.fst h12).symm, (congrArg Prod.snd h12).symm⟩
    have hhc : parts.hRightCaps = [] ∧ parts.hLeftCaps = [] := by
      rcases horizontalSegs_ok_inv hhz with ⟨_, h1, h2⟩ |
        ⟨rx1, rx2, ry, n, hcp⟩
      · exact ⟨h1, h2⟩
      · rw [horizontalCaps_no_beam hbeam] at hcp
        injection hcp with h12
        exact ⟨(congrArg Prod.fst h12).symm, (congrArg Prod.snd h12).symm⟩
    exact ⟨hvc.1, hvc.2, hhc.1, hhc.2⟩
  · intro h1 h2
    rcases verticalSegs_ok_inv hv with ⟨_, _, ht, _⟩ |
      ⟨rx, ry1, ry2, _, _, hcp⟩
    · exact ht
    · exact verticalCaps_top_gate h1 h2 hcp
  · intro h1 h2
    rcases verticalSegs_ok_inv hv with ⟨_, _, _, hb⟩ |
      ⟨rx, ry1, ry2, _, _, hcp⟩
    · exact hb
    · exact verticalCaps_bottom_gate h1 h2 hcp

/-- C6 witness: caps absent for the beam-less `oHeightEx` build, and the
upper-cap gate applied to the `oGateEx` build (positive beam, no
`height`/`top`). -/
theorem beam_caps_gating_w :
    (partsEx.vTopCaps = [] ∧ partsEx.vBotCaps = [] ∧
      partsEx.hRightCaps = [] ∧ partsEx.hLeftCaps = []) ∧
    partsGateEx.vTopCaps = [] :=
  ⟨(beam_caps_gating oHeightEx [PFloat.val (dyOfInt 1)] [PFloat.val (dyOfInt 10)] partsEx
      (by decide)).1 (Or.inl rfl),
    (beam_caps_gating oGateEx [PFloat.val (dyOfInt 1)] [PFloat.val (dyOfInt 10)] partsGateEx
      (by decide)).2.1 rfl rfl⟩

/-- C7: `drawPath` is deterministic in the stored options — building twice
in a row yields the same cached path as building once, and with `x`/`y`
present the outcome does not depend on the previously cached path. -/
theorem drawPath_idempotent :
    (∀ s : EState, drawPathS (drawPathS s) = drawPathS s) ∧
    (∀ (o : Opts) (p q : Option PPath),
      o.x.isSome = true → o.y.isSome = true →
      drawPathE o p = drawPathE o q) := by
  constructor
  · intro s
    obtain ⟨o, pth, evs⟩ := s
    cases hx : o.x with
    | none => simp [drawPathS, drawPathE, hx]
    | some xv =>
        cases hy : o.y with
        | none => simp [drawPathS, drawPathE, hx, hy]
        | some yv =>
            cases hc : drawPathCompute o xv yv with
            | error e => simp [drawPathS, drawPathE, hx, hy, hc]
            | ok parts => simp [drawPathS, drawPathE, hx, hy, hc]
  · intro o p q hx hy
    obtain ⟨xv, hxv⟩ := Option.isSome_iff_exists.mp hx
    obtain ⟨yv, hyv⟩ := Option.isSome_iff_exists.mp hy
    simp [drawPathE, hxv, hyv]

/-- C7 witness: idempotence at the sample state, and cache-independence at
`oHeightEx`. -/
theorem drawPath_idempotent_w :
    drawPathS (drawPathS sEx) = drawPathS sEx ∧
    drawPathE oHeightEx none = drawPathE oHeightEx (some []) :=
  ⟨drawPath_idempotent.1 sEx,
    drawPath_idempotent.2 oHeightEx none (some []) (by decide) (by decide)⟩

/-- C8: `setLogMode` with the currently stored pair is a complete no-op —
state, cache and notification trace all unchanged — and otherwise it
stores the new pair, drops the cached path, and notifies. -/
theorem setLogMode_noop :
    ∀ (s : EState) (a b : Bool),
      (s.opts.logMode = (a, b) → setLogMode s a b = s) ∧
      (s.opts.logMode ≠ (a, b) →
        setLogMode s a b =
          { opts := { s.opts with logMode := (a, b) }, path := none,
            events := s.events ++
              [Ev.update, Ev.geometryChange, Ev.viewBoundsChanged] }) := by
  intro s a b
  constructor
  · intro h; simp [setLogMode, h]
  · intro h; simp [setLogMode, h]

/-- C8 witness: the no-op case at the sample state. -/
theorem setLogMode_noop_w : setLogMode sEx false false = sEx :=
  (setLogMode_noop sEx false false).1 rfl

/-- C9: `setData` merges: every field named in the call overwrites the
stored value, every field not named keeps its previous value, and the
cached path is invalidated. -/
theorem setData_field_merge :
    ∀ (s : EState) (a : DataArgs),
      ((a.x = none → (setData s a).opts.x = s.opts.x) ∧
        ∀ v, a.x = some v → (setData s a).opts.x = v) ∧
      ((a.y = none → (setData s a).opts.y = s.opts.y) ∧
        ∀ v, a.y = some v → (setData s a).opts.y = v) ∧
      ((a.height = none → (setData s a).opts.height = s.opts.height) ∧
        ∀ v, a.height = some v → (setData s a).opts.height = v) ∧
      ((a.width = none → (setData s a).opts.width = s.opts.width) ∧
        ∀ v, a.width = some v → (setData s a).opts.width = v) ∧
      ((a.top = none → (setData s a).opts.top = s.opts.top) ∧
        ∀ v, a.top = some v → (setData s a).opts.top = v) ∧
      ((a.bottom = none → (setData s a).opts.bottom = s.opts.bottom) ∧
        ∀ v, a.bottom = some v → (setData s a).opts.bottom = v) ∧
      ((a.left = none → (setData s a).opts.left = s.opts.left) ∧
        ∀ v, a.left = some v → (setData s a).opts.left = v) ∧
      ((a.right = none → (setData s a).opts.right = s.opts.right) ∧
        ∀ v, a.right = some v → (setData s a).opts.right = v) ∧
      ((a.beam = none → (setData s a).opts.beam = s.opts.beam) ∧
        ∀ v, a.beam = some v → (setData s a).opts.beam = v) ∧
      ((a.pen = none → (setData s a).opts.pen = s.opts.pen) ∧
        ∀ v, a.pen = some v → (setData s a).opts.pen = v) ∧
      ((a.logMode = none → (setData s a).opts.logMode = s.opts.logMode) ∧
        ∀ v, a.logMode = some v → (setData s a).opts.logMode = v) ∧
      (setData s a).path = none := by
  intro s a
  refine ⟨⟨?_, ?_⟩, ⟨?_, ?_⟩, ⟨?_, ?_⟩, ⟨?_, ?_⟩, ⟨?_, ?_⟩, ⟨?_, ?_⟩,
    ⟨?_, ?_⟩, ⟨?_, ?_⟩, ⟨?_, ?_⟩, ⟨?_, ?_⟩, ⟨?_, ?_⟩, ?_⟩
  all_goals
    first
      | (intro h; simp [setData, applyArgs, h])
      | (intro v h; simp [setData, applyArgs, h])
      | rfl

/-- C9 witness: a call naming only `x` overwrites `x`, keeps `top`, and
invalidates the path. -/
theorem setData_field_merge_w :
    (setData sEx a9).opts.x = some [PFloat.val (dyOfInt 7)] ∧
    (setData sEx a9).opts.top = sEx.opts.top ∧
    (setData sEx a9).path = none := by
  obtain ⟨⟨hx1, hx2⟩, _, _, _, ⟨ht1, ht2⟩, _, _, _, _, _, _, hpath⟩ :=
    setData_field_merge sEx a9
  exact ⟨hx2 _ rfl, ht1 rfl, hpath⟩

/-- C10: `setData` has no no-op detection — every call, with any argument
set (including the empty one), drops the cached path and fires the
notifications unconditionally. -/
theorem setData_unconditional :
    ∀ (s : EState) (a : DataArgs),
      (setData s a).path = none ∧
      (setData s a).events =
        s.events ++ [Ev.update, Ev.geometryChange, Ev.viewBoundsChanged] :=
  fun _ _ => ⟨rfl, rfl⟩

end ErrorBarItem
